import Mathlib

/-!
Verification of the gz/ign-rendering ogre2 backend sources.

This file shallowly embeds the pure computational content of
`Ogre2GpuRays` (cubemap sampling and sample-texture construction,
compositor node construction, the two-pass render sequence, frame
post-processing), `Ogre2LaserRetroMaterialSwitcher`,
`Ogre2GlobalIlluminationVct::Build` and the lens-flare fragment shader.

Scalar arithmetic (C++ `double`, GLSL `float`) is modelled exactly over
`ℚ`.  Calls into the external Ogre engine (quaternion rotation from
`ignition::math`, GLSL `length`/`pow` inside `lensflare`, compositor
execution) are modelled as abstract function parameters or as event
traces; unsigned 32-bit arithmetic is modelled with explicit `% 2 ^ 32`.
-/

namespace IgnRendering

/-- 2-component vector (`ignition::math::Vector2d`, GLSL `vec2`). -/
structure Vec2 where
  x : ℚ
  y : ℚ
  deriving DecidableEq

/-- 3-component vector (`ignition::math::Vector3d`, GLSL `vec3`). -/
structure Vec3 where
  x : ℚ
  y : ℚ
  z : ℚ
  deriving DecidableEq

/-- 4-component vector (GLSL `vec4`, `Ogre::Vector4`). -/
structure Vec4 where
  x : ℚ
  y : ℚ
  z : ℚ
  w : ℚ
  deriving DecidableEq

/-- `Ogre2GpuRays::SampleCubemap` (Ogre2GpuRays.cc, lines 491-516).

Selects a cubemap face from the dominant absolute component of the
direction `v` and returns the face-local coordinates `uv * ma + 0.5`
together with the face index (the C++ out-parameter `_faceIndex`). -/
def SampleCubemap (v : Vec3) : Vec2 × ℕ :=
  let vAbs : Vec3 := ⟨|v.x|, |v.y|, |v.z|⟩
  if vAbs.z ≥ vAbs.x ∧ vAbs.z ≥ vAbs.y then
    let faceIndex : ℕ := if v.z < 0 then 5 else 4
    let ma : ℚ := 1 / 2 / vAbs.z
    let uv : Vec2 := ⟨if v.z < 0 then -v.x else v.x, -v.y⟩
    (⟨uv.x * ma + 1 / 2, uv.y * ma + 1 / 2⟩, faceIndex)
  else if vAbs.y ≥ vAbs.x then
    let faceIndex : ℕ := if v.y < 0 then 3 else 2
    let ma : ℚ := 1 / 2 / vAbs.y
    let uv : Vec2 := ⟨v.x, if v.y < 0 then -v.z else v.z⟩
    (⟨uv.x * ma + 1 / 2, uv.y * ma + 1 / 2⟩, faceIndex)
  else
    let faceIndex : ℕ := if v.x < 0 then 1 else 0
    let ma : ℚ := 1 / 2 / vAbs.x
    let uv : Vec2 := ⟨if v.x < 0 then v.z else -v.z, -v.y⟩
    (⟨uv.x * ma + 1 / 2, uv.y * ma + 1 / 2⟩, faceIndex)

/-- Scaling a coordinate bounded by the dominant component lands in `[0, 1]`. -/
lemma half_div_bound {a m : ℚ} (hm : 0 < m) (ha : |a| ≤ m) :
    0 ≤ a * (1 / 2 / m) + 1 / 2 ∧ a * (1 / 2 / m) + 1 / 2 ≤ 1 := by
  have habs := abs_le.mp ha
  have hm2 : (0 : ℚ) < 2 * m := by linarith
  have key : a * (1 / 2 / m) + 1 / 2 = (a + m) / (2 * m) := by
    field_simp
    ring
  constructor
  · rw [key]
    exact div_nonneg (by linarith [habs.1]) (by linarith)
  · rw [key, div_le_one hm2]
    linarith [habs.2]

/-- Evaluation of `SampleCubemap` in the dominant-z branch. -/
lemma SampleCubemap_z (v : Vec3) (h : |v.z| ≥ |v.x| ∧ |v.z| ≥ |v.y|) :
    SampleCubemap v =
      (⟨(if v.z < 0 then -v.x else v.x) * (1 / 2 / |v.z|) + 1 / 2,
        -v.y * (1 / 2 / |v.z|) + 1 / 2⟩,
       if v.z < 0 then 5 else 4) := by
  simp only [SampleCubemap]
  rw [if_pos h]

/-- Evaluation of `SampleCubemap` in the dominant-y branch. -/
lemma SampleCubemap_y (v : Vec3) (h1 : ¬(|v.z| ≥ |v.x| ∧ |v.z| ≥ |v.y|))
    (h2 : |v.y| ≥ |v.x|) :
    SampleCubemap v =
      (⟨v.x * (1 / 2 / |v.y|) + 1 / 2,
        (if v.y < 0 then -v.z else v.z) * (1 / 2 / |v.y|) + 1 / 2⟩,
       if v.y < 0 then 3 else 2) := by
  simp only [SampleCubemap]
  rw [if_neg h1, if_pos h2]

/-- Evaluation of `SampleCubemap` in the dominant-x branch. -/
lemma SampleCubemap_x (v : Vec3) (h1 : ¬(|v.z| ≥ |v.x| ∧ |v.z| ≥ |v.y|))
    (h2 : ¬(|v.y| ≥ |v.x|)) :
    SampleCubemap v =
      (⟨(if v.x < 0 then v.z else -v.z) * (1 / 2 / |v.x|) + 1 / 2,
        -v.y * (1 / 2 / |v.x|) + 1 / 2⟩,
       if v.x < 0 then 1 else 0) := by
  simp only [SampleCubemap]
  rw [if_neg h1, if_neg h2]

/-- C1: For every nonzero direction `v`, `SampleCubemap` selects the face
from the dominant absolute component (4/5 for ±z, else 2/3 for ±y, else
0/1 for ±x) and returns `uv * (0.5 / |dominant|) + 0.5`, so both
returned coordinates lie in `[0, 1]`. -/
theorem SampleCubemap_face_selection_and_bounds (v : Vec3)
    (hv : ¬(v.x = 0 ∧ v.y = 0 ∧ v.z = 0)) :
    ((|v.z| ≥ |v.x| ∧ |v.z| ≥ |v.y|) →
        (SampleCubemap v).2 = (if v.z < 0 then 5 else 4) ∧
        (SampleCubemap v).1 =
          ⟨(if v.z < 0 then -v.x else v.x) * (1 / 2 / |v.z|) + 1 / 2,
            -v.y * (1 / 2 / |v.z|) + 1 / 2⟩) ∧
    (¬(|v.z| ≥ |v.x| ∧ |v.z| ≥ |v.y|) → |v.y| ≥ |v.x| →
        (SampleCubemap v).2 = (if v.y < 0 then 3 else 2) ∧
        (SampleCubemap v).1 =
          ⟨v.x * (1 / 2 / |v.y|) + 1 / 2,
            (if v.y < 0 then -v.z else v.z) * (1 / 2 / |v.y|) + 1 / 2⟩) ∧
    (¬(|v.z| ≥ |v.x| ∧ |v.z| ≥ |v.y|) → ¬(|v.y| ≥ |v.x|) →
        (SampleCubemap v).2 = (if v.x < 0 then 1 else 0) ∧
        (SampleCubemap v).1 =
          ⟨(if v.x < 0 then v.z else -v.z) * (1 / 2 / |v.x|) + 1 / 2,
            -v.y * (1 / 2 / |v.x|) + 1 / 2⟩) ∧
    0 ≤ (SampleCubemap v).1.x ∧ (SampleCubemap v).1.x ≤ 1 ∧
    0 ≤ (SampleCubemap v).1.y ∧ (SampleCubemap v).1.y ≤ 1 := by
  have hax := abs_nonneg v.x
  have hay := abs_nonneg v.y
  have haz := abs_nonneg v.z
  by_cases h1 : |v.z| ≥ |v.x| ∧ |v.z| ≥ |v.y|
  · have hzpos : 0 < |v.z| := by
      rcases lt_or_eq_of_le haz with h | h
      · exact h
      · exfalso
        apply hv
        have hz0 : v.z = 0 := abs_eq_zero.mp h.symm
        have hx0 : v.x = 0 := abs_eq_zero.mp (le_antisymm (h ▸ h1.1) hax)
        have hy0 : v.y = 0 := abs_eq_zero.mp (le_antisymm (h ▸ h1.2) hay)
        exact ⟨hx0, hy0, hz0⟩
    have heq := SampleCubemap_z v h1
    have hbx : |if v.z < 0 then -v.x else v.x| ≤ |v.z| := by
      split <;> simpa using h1.1
    have hby : |(-v.y)| ≤ |v.z| := by simpa using h1.2
    have bx := half_div_bound hzpos hbx
    have by' := half_div_bound hzpos hby
    refine ⟨fun _ => ⟨by rw [heq], by rw [heq]⟩,
      fun h _ => absurd h1 h, fun h _ => absurd h1 h, ?_, ?_, ?_, ?_⟩ <;>
      rw [heq] <;> simp only [] <;>
      first
        | exact bx.1
        | exact bx.2
        | exact by'.1
        | exact by'.2
  · by_cases h2 : |v.y| ≥ |v.x|
    · have hypos : 0 < |v.y| := by
        by_contra hc
        push_neg at hc
        have hy0 : |v.y| = 0 := le_antisymm hc hay
        have hx0 : |v.x| = 0 := le_antisymm (hy0 ▸ h2) hax
        exact h1 ⟨hx0 ▸ haz, hy0 ▸ haz⟩
      have hzy : |v.z| ≤ |v.y| := by
        rcases not_and_or.mp h1 with h | h
        · push_neg at h
          linarith
        · push_neg at h
          linarith
      have heq := SampleCubemap_y v h1 h2
      have hbx : |v.x| ≤ |v.y| := h2
      have hby : |if v.y < 0 then -v.z else v.z| ≤ |v.y| := by
        split <;> simpa using hzy
      have bx := half_div_bound hypos hbx
      have by' := half_div_bound hypos hby
      refine ⟨fun h => absurd h h1, fun _ _ => ⟨by rw [heq], by rw [heq]⟩,
        fun _ h => absurd h2 h, ?_, ?_, ?_, ?_⟩ <;>
        rw [heq] <;> simp only [] <;>
        first
          | exact bx.1
          | exact bx.2
          | exact by'.1
          | exact by'.2
    · push_neg at h2
      have hxpos : 0 < |v.x| := lt_of_le_of_lt hay h2
      have hzx : |v.z| ≤ |v.x| := by
        rcases not_and_or.mp h1 with h | h
        · push_neg at h
          linarith
        · push_neg at h
          linarith
      have heq := SampleCubemap_x v h1 (not_le.mpr h2)
      have hbx : |if v.x < 0 then v.z else -v.z| ≤ |v.x| := by
        split <;> simpa using hzx
      have hby : |(-v.y)| ≤ |v.x| := by
        simpa using le_of_lt h2
      have bx := half_div_bound hxpos hbx
      have by' := half_div_bound hxpos hby
      refine ⟨fun h => absurd h h1, fun _ h => absurd h (not_le.mpr h2),
        fun _ _ => ⟨by rw [heq], by rw [heq]⟩, ?_, ?_, ?_, ?_⟩ <;>
        rw [heq] <;> simp only [] <;>
        first
          | exact bx.1
          | exact bx.2
          | exact by'.1
          | exact by'.2

/-- Witness for C1 at the concrete direction `(1, 2, 3)`. -/
theorem SampleCubemap_face_selection_and_bounds_witness :
    ¬((1 : ℚ) = 0 ∧ (2 : ℚ) = 0 ∧ (3 : ℚ) = 0) ∧
    (SampleCubemap ⟨1, 2, 3⟩).2 = 4 ∧
    0 ≤ (SampleCubemap ⟨1, 2, 3⟩).1.x ∧ (SampleCubemap ⟨1, 2, 3⟩).1.x ≤ 1 ∧
    0 ≤ (SampleCubemap ⟨1, 2, 3⟩).1.y ∧ (SampleCubemap ⟨1, 2, 3⟩).1.y ≤ 1 := by
  have h := SampleCubemap_face_selection_and_bounds ⟨1, 2, 3⟩ (by norm_num)
  have hcond : |(3 : ℚ)| ≥ |(1 : ℚ)| ∧ |(3 : ℚ)| ≥ |(2 : ℚ)| := by
    norm_num
  refine ⟨by norm_num, ?_, h.2.2.2.1, h.2.2.2.2.1, h.2.2.2.2.2.1, h.2.2.2.2.2.2⟩
  have hface := (h.1 hcond).1
  simpa using hface

/-- Unsigned 32-bit decrement, modelling the C++ expression `w2nd - 1`
on an `unsigned int` (wraps to `2 ^ 32 - 1` at zero). -/
def uint32Pred (n : ℕ) : ℕ := (n + (2 ^ 32 - 1)) % 2 ^ 32

/-- Horizontal step of `Ogre2GpuRays::CreateSampleTexture`
(Ogre2GpuRays.cc line 525): `(max - min) / static_cast<double>(w2nd - 1)`,
computed with no guard on the divisor. -/
def hStepOf (hmin hmax : ℚ) (w2nd : ℕ) : ℚ :=
  (hmax - hmin) / (uint32Pred w2nd : ℚ)

/-- Vertical step of `CreateSampleTexture` (lines 526-529): `1.0` in the
planar case, `(vmax - vmin) / (h2nd - 1)` when `h2nd > 1`. -/
def vStepOf (vmin vmax : ℚ) (h2nd : ℕ) : ℚ :=
  if 1 < h2nd then (vmax - vmin) / (uint32Pred h2nd : ℚ) else 1

lemma uint32Pred_eq {n : ℕ} (h1 : 1 ≤ n) (h2 : n < 2 ^ 32) :
    uint32Pred n = n - 1 := by
  unfold uint32Pred
  omega

/-- Inner (column) loop of `CreateSampleTexture`: column `j` of a row uses
the accumulated yaw angle `h` (reset to the horizontal minimum at the start
of each row), stepping by `hStep`.  `dir v h` abstracts the external
`ignition::math` quaternion computation
`yaw * pitch * (0, 0, 1)` with pitch `-v` about x and yaw `-h` about y. -/
def sampleRow (dir : ℚ → ℚ → Vec3) (v hStep : ℚ) : ℚ → ℕ → List (ℚ × ℚ × ℕ)
  | _, 0 => []
  | h, n + 1 =>
    ((SampleCubemap (dir v h)).1.x, (SampleCubemap (dir v h)).1.y,
      (SampleCubemap (dir v h)).2) :: sampleRow dir v hStep (h + hStep) n

/-- Outer (row) loop of `CreateSampleTexture`: row `i` uses the accumulated
pitch angle `v` (starting at the vertical minimum), stepping by `vStep`. -/
def sampleGrid (dir : ℚ → ℚ → Vec3) (hmin hStep vStep : ℚ) (w : ℕ) :
    ℚ → ℕ → List (ℚ × ℚ × ℕ)
  | _, 0 => []
  | v, n + 1 =>
    sampleRow dir v hStep hmin w ++
      sampleGrid dir hmin hStep vStep w (v + vStep) n

/-- The pixel triples (u, v, faceIndex) produced by
`Ogre2GpuRays::CreateSampleTexture` (Ogre2GpuRays.cc lines 519-652),
row-major with `h2nd` rows of `w2nd` columns. -/
def CreateSampleTextureSamples (dir : ℚ → ℚ → Vec3)
    (hmin hmax vmin vmax : ℚ) (w2nd h2nd : ℕ) : List (ℚ × ℚ × ℕ) :=
  sampleGrid dir hmin (hStepOf hmin hmax w2nd) (vStepOf vmin vmax h2nd)
    w2nd vmin h2nd

/-- The flat float buffer `pDest`: u, v, faceIndex per pixel, written at
consecutive indices. -/
def flat3 : List (ℚ × ℚ × ℕ) → List ℚ
  | [] => []
  | t :: ts => t.1 :: t.2.1 :: (t.2.2 : ℚ) :: flat3 ts

/-- The contents of the `cubeUVTexture` staging buffer. -/
def CreateSampleTextureBuffer (dir : ℚ → ℚ → Vec3)
    (hmin hmax vmin vmax : ℚ) (w2nd h2nd : ℕ) : List ℚ :=
  flat3 (CreateSampleTextureSamples dir hmin hmax vmin vmax w2nd h2nd)

/-- The set `cubeFaceIdx` after `CreateSampleTexture`: all face indices
inserted during the loop. -/
def cubeFaceIdxOf (dir : ℚ → ℚ → Vec3)
    (hmin hmax vmin vmax : ℚ) (w2nd h2nd : ℕ) : Finset ℕ :=
  ((CreateSampleTextureSamples dir hmin hmax vmin vmax w2nd h2nd).map
    (fun t => t.2.2)).toFinset

lemma sampleRow_length (dir : ℚ → ℚ → Vec3) (v hStep : ℚ) :
    ∀ (n : ℕ) (h : ℚ), (sampleRow dir v hStep h n).length = n
  | 0, _ => rfl
  | n + 1, h => by
    simp [sampleRow, sampleRow_length dir v hStep n]

lemma sampleRow_getElem (dir : ℚ → ℚ → Vec3) (v hStep : ℚ) :
    ∀ (n : ℕ) (h : ℚ) (j : ℕ), j < n →
      (sampleRow dir v hStep h n)[j]? =
        some ((SampleCubemap (dir v (h + (j : ℚ) * hStep))).1.x,
              (SampleCubemap (dir v (h + (j : ℚ) * hStep))).1.y,
              (SampleCubemap (dir v (h + (j : ℚ) * hStep))).2)
  | 0, _, j, hj => absurd hj (Nat.not_lt_zero j)
  | n + 1, h, 0, _ => by
    simp [sampleRow]
  | n + 1, h, j + 1, hj => by
    have ih := sampleRow_getElem dir v hStep n (h + hStep) j
      (Nat.lt_of_succ_lt_succ hj)
    have hangle : h + hStep + (j : ℚ) * hStep = h + ((j : ℚ) + 1) * hStep := by
      ring
    simp only [sampleRow, List.getElem?_cons_succ]
    rw [ih, hangle]
    push_cast
    ring_nf

lemma sampleGrid_getElem (dir : ℚ → ℚ → Vec3) (hmin hStep vStep : ℚ)
    (w : ℕ) :
    ∀ (n : ℕ) (v : ℚ) (i j : ℕ), i < n → j < w →
      (sampleGrid dir hmin hStep vStep w v n)[i * w + j]? =
        some ((SampleCubemap
                (dir (v + (i : ℚ) * vStep) (hmin + (j : ℚ) * hStep))).1.x,
              (SampleCubemap
                (dir (v + (i : ℚ) * vStep) (hmin + (j : ℚ) * hStep))).1.y,
              (SampleCubemap
                (dir (v + (i : ℚ) * vStep) (hmin + (j : ℚ) * hStep))).2)
  | 0, _, i, _, hi, _ => absurd hi (Nat.not_lt_zero i)
  | n + 1, v, 0, j, _, hj => by
    have hlen : j < (sampleRow dir v hStep hmin w).length := by
      rw [sampleRow_length]
      exact hj
    simp only [sampleGrid, Nat.zero_mul, Nat.zero_add]
    rw [List.getElem?_append_left hlen,
      sampleRow_getElem dir v hStep w hmin j hj]
    norm_num
  | n + 1, v, i + 1, j, hi, hj => by
    have hlen : (sampleRow dir v hStep hmin w).length ≤ (i + 1) * w + j := by
      rw [sampleRow_length]
      nlinarith
    have ih := sampleGrid_getElem dir hmin hStep vStep w n (v + vStep) i j
      (Nat.lt_of_succ_lt_succ hi) hj
    have hidx : (i + 1) * w + j - (sampleRow dir v hStep hmin w).length
        = i * w + j := by
      rw [sampleRow_length]
      rw [show (i + 1) * w + j = w + (i * w + j) from by ring]
      generalize i * w + j = m
      omega
    have hangle : v + vStep + (i : ℚ) * vStep = v + ((i : ℚ) + 1) * vStep := by
      ring
    simp only [sampleGrid]
    rw [List.getElem?_append_right hlen, hidx, ih, hangle]
    push_cast
    ring_nf

lemma sampleRow_faces (dir : ℚ → ℚ → Vec3) (v hStep : ℚ) :
    ∀ (n : ℕ) (h : ℚ) (f : ℕ),
      ((∃ t ∈ sampleRow dir v hStep h n, t.2.2 = f) ↔
        ∃ j < n, (SampleCubemap (dir v (h + (j : ℚ) * hStep))).2 = f)
  | 0, h, f => by
    simp [sampleRow]
  | n + 1, h, f => by
    rw [show sampleRow dir v hStep h (n + 1) =
      ((SampleCubemap (dir v h)).1.x, (SampleCubemap (dir v h)).1.y,
        (SampleCubemap (dir v h)).2) :: sampleRow dir v hStep (h + hStep) n
      from rfl]
    constructor
    · rintro ⟨t, ht, hf⟩
      rcases List.mem_cons.mp ht with h0 | hrest
      · refine ⟨0, Nat.succ_pos n, ?_⟩
        subst h0
        simpa using hf
      · rcases (sampleRow_faces dir v hStep n (h + hStep) f).mp
          ⟨t, hrest, hf⟩ with ⟨j, hjn, hface⟩
        refine ⟨j + 1, Nat.succ_lt_succ hjn, ?_⟩
        push_cast
        rw [show h + ((j : ℚ) + 1) * hStep = h + hStep + (j : ℚ) * hStep
          from by ring]
        exact hface
    · rintro ⟨j, hjn, hface⟩
      match j with
      | 0 =>
        refine ⟨((SampleCubemap (dir v h)).1.x, (SampleCubemap (dir v h)).1.y,
          (SampleCubemap (dir v h)).2), List.mem_cons_self _ _, ?_⟩
        simpa using hface
      | j + 1 =>
        have hface' : (SampleCubemap
            (dir v (h + hStep + (j : ℚ) * hStep))).2 = f := by
          have h2 := hface
          push_cast at h2
          rw [show h + ((j : ℚ) + 1) * hStep = h + hStep + (j : ℚ) * hStep
            from by ring] at h2
          exact h2
        rcases (sampleRow_faces dir v hStep n (h + hStep) f).mpr
          ⟨j, Nat.lt_of_succ_lt_succ hjn, hface'⟩ with ⟨t, ht, hf⟩
        exact ⟨t, List.mem_cons_of_mem _ ht, hf⟩

lemma sampleGrid_faces (dir : ℚ → ℚ → Vec3) (hmin hStep vStep : ℚ)
    (w : ℕ) :
    ∀ (n : ℕ) (v : ℚ) (f : ℕ),
      ((∃ t ∈ sampleGrid dir hmin hStep vStep w v n, t.2.2 = f) ↔
        ∃ i < n, ∃ j < w,
          (SampleCubemap
            (dir (v + (i : ℚ) * vStep) (hmin + (j : ℚ) * hStep))).2 = f)
  | 0, v, f => by
    simp [sampleGrid]
  | n + 1, v, f => by
    rw [show sampleGrid dir hmin hStep vStep w v (n + 1) =
      sampleRow dir v hStep hmin w ++
        sampleGrid dir hmin hStep vStep w (v + vStep) n from rfl]
    constructor
    · rintro ⟨t, ht, hf⟩
      rcases List.mem_append.mp ht with hrow | hgrid
      · rcases (sampleRow_faces dir v hStep w hmin f).mp ⟨t, hrow, hf⟩ with
          ⟨j, hjw, hface⟩
        refine ⟨0, Nat.succ_pos n, j, hjw, ?_⟩
        simpa using hface
      · rcases (sampleGrid_faces dir hmin hStep vStep w n (v + vStep) f).mp
          ⟨t, hgrid, hf⟩ with ⟨i, hin, j, hjw, hface⟩
        refine ⟨i + 1, Nat.succ_lt_succ hin, j, hjw, ?_⟩
        push_cast
        rw [show v + ((i : ℚ) + 1) * vStep = v + vStep + (i : ℚ) * vStep
          from by ring]
        exact hface
    · rintro ⟨i, hin, j, hjw, hface⟩
      match i with
      | 0 =>
        have hface' : (SampleCubemap
            (dir v (hmin + (j : ℚ) * hStep))).2 = f := by
          simpa using hface
        rcases (sampleRow_faces dir v hStep w hmin f).mpr
          ⟨j, hjw, hface'⟩ with ⟨t, ht, hf⟩
        exact ⟨t, List.mem_append_left _ ht, hf⟩
      | i + 1 =>
        have hface' : (SampleCubemap
            (dir (v + vStep + (i : ℚ) * vStep)
              (hmin + (j : ℚ) * hStep))).2 = f := by
          have h2 := hface
          push_cast at h2
          rw [show v + ((i : ℚ) + 1) * vStep = v + vStep + (i : ℚ) * vStep
            from by ring] at h2
          exact h2
        rcases (sampleGrid_faces dir hmin hStep vStep w n (v + vStep) f).mpr
          ⟨i, Nat.lt_of_succ_lt_succ hin, j, hjw, hface'⟩ with ⟨t, ht, hf⟩
        exact ⟨t, List.mem_append_right _ ht, hf⟩

lemma flat3_length : ∀ l : List (ℚ × ℚ × ℕ), (flat3 l).length = 3 * l.length
  | [] => rfl
  | t :: ts => by
    simp [flat3, flat3_length ts]
    ring

lemma flat3_getElem : ∀ (l : List (ℚ × ℚ × ℕ)) (k : ℕ),
    (flat3 l)[3 * k]? = l[k]?.map (fun t => t.1) ∧
    (flat3 l)[3 * k + 1]? = l[k]?.map (fun t => t.2.1) ∧
    (flat3 l)[3 * k + 2]? = l[k]?.map (fun t => (t.2.2 : ℚ))
  | [], k => by
    simp [flat3]
  | t :: ts, 0 => by
    simp [flat3]
  | t :: ts, k + 1 => by
    have ih := flat3_getElem ts k
    have h0 : 3 * (k + 1) = (3 * k + 2) + 1 := by ring
    have h1 : 3 * (k + 1) + 1 = ((3 * k + 2) + 1) + 1 := by ring
    have h2 : 3 * (k + 1) + 2 = (((3 * k + 2) + 1) + 1) + 1 := by ring
    refine ⟨?_, ?_, ?_⟩
    · rw [h0]
      simp only [flat3, List.getElem?_cons_succ]
      exact ih.1
    · rw [h1]
      simp only [flat3, List.getElem?_cons_succ]
      exact ih.2.1
    · rw [h2]
      simp only [flat3, List.getElem?_cons_succ]
      rw [show 3 * k + 1 + 1 = 3 * k + 2 from by omega]
      exact ih.2.2

lemma sampleGrid_length (dir : ℚ → ℚ → Vec3) (hmin hStep vStep : ℚ)
    (w : ℕ) :
    ∀ (n : ℕ) (v : ℚ), (sampleGrid dir hmin hStep vStep w v n).length = n * w
  | 0, _ => by simp [sampleGrid]
  | n + 1, v => by
    simp [sampleGrid, sampleRow_length,
      sampleGrid_length dir hmin hStep vStep w n]
    ring

/-- C2: `CreateSampleTexture` fills the `w2nd × h2nd` cube-UV texture so
that the pixel at row `i`, column `j` holds the `(u, v, faceIndex)` triple
returned by `SampleCubemap` on the direction for pitch `-(vmin + i*vStep)`
and yaw `-(hmin + j*hStep)` (`dir` abstracts that rotation), with
`hStep = (hmax - hmin) / (w2nd - 1)` and `vStep = (vmax - vmin)/(h2nd - 1)`
when `h2nd > 1`, else `1`; afterwards `cubeFaceIdx` is exactly the set of
face indices occurring among the samples. -/
theorem CreateSampleTexture_spec
    (dir : ℚ → ℚ → Vec3) (hmin hmax vmin vmax : ℚ) (w2nd h2nd : ℕ)
    (hw : 2 ≤ w2nd) (hh : 1 ≤ h2nd)
    (hw32 : w2nd < 2 ^ 32) (hh32 : h2nd < 2 ^ 32) :
    hStepOf hmin hmax w2nd = (hmax - hmin) / ((w2nd : ℚ) - 1) ∧
    vStepOf vmin vmax h2nd =
      (if 1 < h2nd then (vmax - vmin) / ((h2nd : ℚ) - 1) else 1) ∧
    (CreateSampleTextureBuffer dir hmin hmax vmin vmax w2nd h2nd).length
      = 3 * (h2nd * w2nd) ∧
    (∀ i j : ℕ, i < h2nd → j < w2nd →
      (CreateSampleTextureBuffer dir hmin hmax vmin vmax w2nd
          h2nd)[3 * (i * w2nd + j)]? =
        some (SampleCubemap (dir (vmin + (i : ℚ) * vStepOf vmin vmax h2nd)
          (hmin + (j : ℚ) * hStepOf hmin hmax w2nd))).1.x ∧
      (CreateSampleTextureBuffer dir hmin hmax vmin vmax w2nd
          h2nd)[3 * (i * w2nd + j) + 1]? =
        some (SampleCubemap (dir (vmin + (i : ℚ) * vStepOf vmin vmax h2nd)
          (hmin + (j : ℚ) * hStepOf hmin hmax w2nd))).1.y ∧
      (CreateSampleTextureBuffer dir hmin hmax vmin vmax w2nd
          h2nd)[3 * (i * w2nd + j) + 2]? =
        some (((SampleCubemap (dir (vmin + (i : ℚ) * vStepOf vmin vmax h2nd)
          (hmin + (j : ℚ) * hStepOf hmin hmax w2nd))).2 : ℚ))) ∧
    (∀ f : ℕ, f ∈ cubeFaceIdxOf dir hmin hmax vmin vmax w2nd h2nd ↔
      ∃ i < h2nd, ∃ j < w2nd,
        (SampleCubemap (dir (vmin + (i : ℚ) * vStepOf vmin vmax h2nd)
          (hmin + (j : ℚ) * hStepOf hmin hmax w2nd))).2 = f) := by
  have hwcast : ((uint32Pred w2nd : ℕ) : ℚ) = (w2nd : ℚ) - 1 := by
    rw [uint32Pred_eq (by omega) hw32]
    push_cast [Nat.cast_sub (show 1 ≤ w2nd by omega)]
    ring
  refine ⟨?_, ?_, ?_, ?_, ?_⟩
  · unfold hStepOf
    rw [hwcast]
  · unfold vStepOf
    by_cases h : 1 < h2nd
    · rw [if_pos h, if_pos h, uint32Pred_eq (by omega) hh32]
      rw [Nat.cast_sub (show 1 ≤ h2nd by omega)]
      norm_num
    · rw [if_neg h, if_neg h]
  · unfold CreateSampleTextureBuffer CreateSampleTextureSamples
    rw [flat3_length, sampleGrid_length]
  · intro i j hi hj
    have hget := sampleGrid_getElem dir hmin (hStepOf hmin hmax w2nd)
      (vStepOf vmin vmax h2nd) w2nd h2nd vmin i j hi hj
    have hflat := flat3_getElem
      (CreateSampleTextureSamples dir hmin hmax vmin vmax w2nd h2nd)
      (i * w2nd + j)
    unfold CreateSampleTextureBuffer
    refine ⟨?_, ?_, ?_⟩
    · rw [hflat.1]
      unfold CreateSampleTextureSamples
      rw [hget]
      rfl
    · rw [hflat.2.1]
      unfold CreateSampleTextureSamples
      rw [hget]
      rfl
    · rw [hflat.2.2]
      unfold CreateSampleTextureSamples
      rw [hget]
      rfl
  · intro f
    have hfaces := sampleGrid_faces dir hmin (hStepOf hmin hmax w2nd)
      (vStepOf vmin vmax h2nd) w2nd h2nd vmin f
    rw [cubeFaceIdxOf, List.mem_toFinset, List.mem_map]
    rw [← hfaces]
    unfold CreateSampleTextureSamples
    constructor
    · rintro ⟨t, ht, hf⟩
      exact ⟨t, ht, hf⟩
    · rintro ⟨t, ht, hf⟩
      exact ⟨t, ht, hf⟩

/-- Witness for C2: a constant abstract direction hitting face 4 on a
2-by-1 sample texture. -/
theorem CreateSampleTexture_spec_witness :
    ((2 : ℕ) ≤ 2 ∧ (1 : ℕ) ≤ 1 ∧ (2 : ℕ) < 2 ^ 32 ∧ (1 : ℕ) < 2 ^ 32) ∧
    4 ∈ cubeFaceIdxOf (fun _ _ => ⟨0, 0, 1⟩) 0 1 0 1 2 1 := by
  have h := CreateSampleTexture_spec (fun _ _ => ⟨0, 0, 1⟩) 0 1 0 1 2 1
    (by norm_num) (by norm_num) (by norm_num) (by norm_num)
  refine ⟨⟨le_refl 2, le_refl 1, by norm_num, by norm_num⟩, ?_⟩
  refine (h.2.2.2.2 4).mpr ⟨0, by norm_num, 0, by norm_num, ?_⟩
  decide

/-- C10: the vertical step of `CreateSampleTexture` is guarded (set to `1`
when `h2nd ≤ 1`, and its divisor is nonzero when `h2nd > 1`), while the
horizontal step divides by `w2nd - 1` with no guard: the divisor is
nonzero for `w2nd ≥ 2` but is zero at `w2nd = 1`. -/
theorem CreateSampleTexture_step_division_guard
    (hmin hmax vmin vmax : ℚ) (w2nd h2nd : ℕ)
    (hw32 : w2nd < 2 ^ 32) (hh32 : h2nd < 2 ^ 32) :
    hStepOf hmin hmax w2nd = (hmax - hmin) / (uint32Pred w2nd : ℚ) ∧
    (¬ 1 < h2nd → vStepOf vmin vmax h2nd = 1) ∧
    (1 < h2nd → (uint32Pred h2nd : ℚ) ≠ 0) ∧
    (2 ≤ w2nd → (uint32Pred w2nd : ℚ) ≠ 0) ∧
    (w2nd = 1 → uint32Pred w2nd = 0) := by
  refine ⟨rfl, ?_, ?_, ?_, ?_⟩
  · intro h
    unfold vStepOf
    rw [if_neg h]
  · intro h
    rw [uint32Pred_eq (by omega) hh32]
    have hne : h2nd - 1 ≠ 0 := by omega
    exact_mod_cast hne
  · intro h
    rw [uint32Pred_eq (by omega) hw32]
    have hne : w2nd - 1 ≠ 0 := by omega
    exact_mod_cast hne
  · intro h
    subst h
    unfold uint32Pred
    omega

/-- Witness for C10 at `w2nd = 2`, `h2nd = 1`. -/
theorem CreateSampleTexture_step_division_guard_witness :
    ((2 : ℕ) < 2 ^ 32 ∧ (1 : ℕ) < 2 ^ 32) ∧
    vStepOf 0 1 1 = 1 ∧ (uint32Pred 2 : ℚ) ≠ 0 := by
  have h := CreateSampleTexture_step_division_guard 0 1 0 1 2 1
    (by norm_num) (by norm_num)
  exact ⟨⟨by norm_num, by norm_num⟩, h.2.1 (by norm_num),
    h.2.2.2.1 (by norm_num)⟩

/-- A compositor pass added by `addPass` in `Setup1stPass`: a clear pass
with its clear colour, a `render_scene` pass with its visibility mask, or
a `render_quad` pass with its material name and quad texture sources. -/
inductive CompositorPassDefn where
  | clear (colour : ℚ × ℚ × ℚ)
  | renderScene (visibilityMask : ℕ)
  | renderQuad (materialName : String) (textureSources : List (ℕ × String))
  deriving DecidableEq

/-- A compositor target pass (`addTargetPass`): render-target name plus
its passes in `addPass` order. -/
structure CompositorTargetDefn where
  renderTargetName : String
  passes : List CompositorPassDefn
  deriving DecidableEq

/-- Whether a pass renders (scene or quad) rather than clears. -/
def CompositorPassDefn.isRender : CompositorPassDefn → Bool
  | .clear _ => false
  | .renderScene _ => true
  | .renderQuad _ _ => true

/-- The target passes of the first-pass compositor node built by
`Ogre2GpuRays::Setup1stPass` (Ogre2GpuRays.cc lines 838-898), in the order
of the `addTargetPass` / `addPass` calls.  `name` is `this->Name()` (the
per-instance material clone is `name + "_GpuRaysScan1st"`), `dataMaxVal`
the sensor maximum, and `kParticleVisibilityFlags` the constant from
`Ogre2ParticleEmitter` (outside this translation unit, kept abstract). -/
def Setup1stPassTargets (name : String) (dataMaxVal : ℚ)
    (kParticleVisibilityFlags : ℕ) : List CompositorTargetDefn :=
  let matFirstPassName := name ++ "_GpuRaysScan1st"
  [ { renderTargetName := "colorTexture",
      passes := [ .clear (0, 0, 0),
                  .renderScene (0x01000000 &&&
                    ((2 ^ 32 - 1) ^^^ kParticleVisibilityFlags)) ] },
    { renderTargetName := "particleTexture",
      passes := [ .clear (0, 0, 0),
                  .renderScene kParticleVisibilityFlags ] },
    { renderTargetName := "rt_input",
      passes := [ .clear (dataMaxVal, 0, 1),
                  .renderQuad matFirstPassName
                    [ (0, "depthTexture"), (1, "colorTexture"),
                      (2, "particleDepthTexture"),
                      (3, "particleTexture") ] ] } ]

/-- C3: `Setup1stPass` builds the first-pass node with exactly three target
passes, in order colorTexture, particleTexture, rt_input, each a clear pass
followed by a render pass; the rt_input clear colour is
`(dataMaxVal, 0, 1.0)` and its quad pass uses the per-instance clone of the
`GpuRaysScan1st` material with quad texture sources 0-3 bound to
depthTexture, colorTexture, particleDepthTexture, particleTexture. -/
theorem Setup1stPass_node_structure (name : String) (dataMaxVal : ℚ)
    (kParticleVisibilityFlags : ℕ) :
    (Setup1stPassTargets name dataMaxVal kParticleVisibilityFlags).length
      = 3 ∧
    (Setup1stPassTargets name dataMaxVal kParticleVisibilityFlags).map
        (fun t => t.renderTargetName)
      = [ "colorTexture", "particleTexture", "rt_input" ] ∧
    (∀ t ∈ Setup1stPassTargets name dataMaxVal kParticleVisibilityFlags,
      ∃ c p, t.passes = [ .clear c, p ] ∧ p.isRender = true) ∧
    (Setup1stPassTargets name dataMaxVal kParticleVisibilityFlags)[2]? =
      some { renderTargetName := "rt_input",
             passes := [ .clear (dataMaxVal, 0, 1),
                         .renderQuad (name ++ "_GpuRaysScan1st")
                           [ (0, "depthTexture"), (1, "colorTexture"),
                             (2, "particleDepthTexture"),
                             (3, "particleTexture") ] ] } := by
  refine ⟨rfl, rfl, ?_, rfl⟩
  intro t ht
  simp only [Setup1stPassTargets, List.mem_cons, List.not_mem_nil,
    or_false] at ht
  rcases ht with rfl | rfl | rfl
  · exact ⟨(0, 0, 0), _, rfl, rfl⟩
  · exact ⟨(0, 0, 0), _, rfl, rfl⟩
  · exact ⟨(dataMaxVal, 0, 1), _, rfl, rfl⟩

/-- Calls issued by `Ogre2GpuRays` to the Ogre root / compositor manager
while rendering. -/
inductive GpuRaysRenderEvent where
  | enableFirstPass (face : ℕ)
  | disableFirstPass (face : ℕ)
  | enableSecondPass
  | disableSecondPass
  | renderOneFrame
  deriving DecidableEq

/-- `Ogre2GpuRays::UpdateRenderTarget1stPass` (lines 1131-1141): enable the
first-pass workspace of every face in `cubeFaceIdx`, render one frame,
disable them all again. -/
def UpdateRenderTarget1stPass (cubeFaceIdx : List ℕ) :
    List GpuRaysRenderEvent :=
  cubeFaceIdx.map GpuRaysRenderEvent.enableFirstPass ++
    [ GpuRaysRenderEvent.renderOneFrame ] ++
    cubeFaceIdx.map GpuRaysRenderEvent.disableFirstPass

/-- `Ogre2GpuRays::UpdateRenderTarget2ndPass` (lines 1144-1150). -/
def UpdateRenderTarget2ndPass : List GpuRaysRenderEvent :=
  [ GpuRaysRenderEvent.enableSecondPass, GpuRaysRenderEvent.renderOneFrame,
    GpuRaysRenderEvent.disableSecondPass ]

/-- `Ogre2GpuRays::Render` (lines 1152-1157): first pass, then second. -/
def RenderTrace (cubeFaceIdx : List ℕ) : List GpuRaysRenderEvent :=
  UpdateRenderTarget1stPass cubeFaceIdx ++ UpdateRenderTarget2ndPass

/-- Enabled/disabled state of the gpu-rays compositor workspaces. -/
structure WorkspaceEnabled where
  firstPass : ℕ → Bool
  secondPass : Bool

/-- Effect of one event on the workspace-enabled state. -/
def applyRenderEvent (s : WorkspaceEnabled) :
    GpuRaysRenderEvent → WorkspaceEnabled
  | .enableFirstPass f =>
    { s with firstPass := fun g => if g = f then true else s.firstPass g }
  | .disableFirstPass f =>
    { s with firstPass := fun g => if g = f then false else s.firstPass g }
  | .enableSecondPass => { s with secondPass := true }
  | .disableSecondPass => { s with secondPass := false }
  | .renderOneFrame => s

def applyRenderEvents (s : WorkspaceEnabled)
    (es : List GpuRaysRenderEvent) : WorkspaceEnabled :=
  es.foldl applyRenderEvent s

lemma applyRenderEvents_append (s : WorkspaceEnabled)
    (a b : List GpuRaysRenderEvent) :
    applyRenderEvents s (a ++ b)
      = applyRenderEvents (applyRenderEvents s a) b :=
  List.foldl_append applyRenderEvent s a b

lemma applyEnableFirst : ∀ (faces : List ℕ) (s : WorkspaceEnabled),
    (∀ f ∈ faces, (applyRenderEvents s
      (faces.map GpuRaysRenderEvent.enableFirstPass)).firstPass f = true) ∧
    (∀ g, g ∉ faces → (applyRenderEvents s
      (faces.map GpuRaysRenderEvent.enableFirstPass)).firstPass g
        = s.firstPass g) ∧
    (applyRenderEvents s
      (faces.map GpuRaysRenderEvent.enableFirstPass)).secondPass
        = s.secondPass
  | [], s => by
    refine ⟨by simp, by intro g _; rfl, rfl⟩
  | f :: rest, s => by
    have step : applyRenderEvents s
        ((f :: rest).map GpuRaysRenderEvent.enableFirstPass)
      = applyRenderEvents
          (applyRenderEvent s (GpuRaysRenderEvent.enableFirstPass f))
          (rest.map GpuRaysRenderEvent.enableFirstPass) := rfl
    have ih := applyEnableFirst rest
      (applyRenderEvent s (GpuRaysRenderEvent.enableFirstPass f))
    refine ⟨?_, ?_, ?_⟩
    · intro f' hf'
      rw [step]
      rcases List.mem_cons.mp hf' with rfl | hrest
      · by_cases hmem : f' ∈ rest
        · exact ih.1 f' hmem
        · rw [ih.2.1 f' hmem]
          simp [applyRenderEvent]
      · exact ih.1 f' hrest
    · intro g hg
      rw [step, ih.2.1 g (fun h => hg (List.mem_cons_of_mem f h))]
      have hgf : g ≠ f := fun h => hg (h ▸ List.mem_cons_self f rest)
      simp [applyRenderEvent, hgf]
    · rw [step, ih.2.2]
      rfl

lemma applyDisableFirst : ∀ (faces : List ℕ) (s : WorkspaceEnabled),
    (∀ f ∈ faces, (applyRenderEvents s
      (faces.map GpuRaysRenderEvent.disableFirstPass)).firstPass f
        = false) ∧
    (∀ g, g ∉ faces → (applyRenderEvents s
      (faces.map GpuRaysRenderEvent.disableFirstPass)).firstPass g
        = s.firstPass g) ∧
    (applyRenderEvents s
      (faces.map GpuRaysRenderEvent.disableFirstPass)).secondPass
        = s.secondPass
  | [], s => by
    refine ⟨by simp, by intro g _; rfl, rfl⟩
  | f :: rest, s => by
    have step : applyRenderEvents s
        ((f :: rest).map GpuRaysRenderEvent.disableFirstPass)
      = applyRenderEvents
          (applyRenderEvent s (GpuRaysRenderEvent.disableFirstPass f))
          (rest.map GpuRaysRenderEvent.disableFirstPass) := rfl
    have ih := applyDisableFirst rest
      (applyRenderEvent s (GpuRaysRenderEvent.disableFirstPass f))
    refine ⟨?_, ?_, ?_⟩
    · intro f' hf'
      rw [step]
      rcases List.mem_cons.mp hf' with rfl | hrest
      · by_cases hmem : f' ∈ rest
        · exact ih.1 f' hmem
        · rw [ih.2.1 f' hmem]
          simp [applyRenderEvent]
      · exact ih.1 f' hrest
    · intro g hg
      rw [step, ih.2.1 g (fun h => hg (List.mem_cons_of_mem f h))]
      have hgf : g ≠ f := fun h => hg (h ▸ List.mem_cons_self f rest)
      simp [applyRenderEvent, hgf]
    · rw [step, ih.2.2]
      rfl

/-- C4: `Render()` runs the first (cubemap) pass strictly before the
second pass: it enables exactly the first-pass workspaces of the cube
faces in `cubeFaceIdx`, renders one frame, disables them, then enables
the single second-pass workspace, renders one frame, and disables it;
no gpu-rays workspace remains enabled when `Render()` returns. -/
theorem Render_two_pass_order (cubeFaceIdx : List ℕ) (s : WorkspaceEnabled) :
    RenderTrace cubeFaceIdx =
      cubeFaceIdx.map GpuRaysRenderEvent.enableFirstPass ++
        [ GpuRaysRenderEvent.renderOneFrame ] ++
        cubeFaceIdx.map GpuRaysRenderEvent.disableFirstPass ++
        [ GpuRaysRenderEvent.enableSecondPass,
          GpuRaysRenderEvent.renderOneFrame,
          GpuRaysRenderEvent.disableSecondPass ] ∧
    (∀ f ∈ cubeFaceIdx, (applyRenderEvents s
      (cubeFaceIdx.map GpuRaysRenderEvent.enableFirstPass)).firstPass f
        = true) ∧
    (applyRenderEvents s
      (cubeFaceIdx.map GpuRaysRenderEvent.enableFirstPass)).secondPass
        = s.secondPass ∧
    (∀ f ∈ cubeFaceIdx, (applyRenderEvents s
      (UpdateRenderTarget1stPass cubeFaceIdx ++
        [ GpuRaysRenderEvent.enableSecondPass ])).firstPass f = false) ∧
    (applyRenderEvents s
      (UpdateRenderTarget1stPass cubeFaceIdx ++
        [ GpuRaysRenderEvent.enableSecondPass ])).secondPass = true ∧
    (∀ f ∈ cubeFaceIdx,
      (applyRenderEvents s (RenderTrace cubeFaceIdx)).firstPass f
        = false) ∧
    (applyRenderEvents s (RenderTrace cubeFaceIdx)).secondPass = false ∧
    (∀ g, g ∉ cubeFaceIdx →
      (applyRenderEvents s (RenderTrace cubeFaceIdx)).firstPass g
        = s.firstPass g) := by
  have hA := applyEnableFirst cubeFaceIdx s
  have hU : applyRenderEvents s (UpdateRenderTarget1stPass cubeFaceIdx)
      = applyRenderEvents
          (applyRenderEvents s
            (cubeFaceIdx.map GpuRaysRenderEvent.enableFirstPass))
          (cubeFaceIdx.map GpuRaysRenderEvent.disableFirstPass) := by
    unfold UpdateRenderTarget1stPass
    rw [applyRenderEvents_append, applyRenderEvents_append]
    rfl
  have hD := applyDisableFirst cubeFaceIdx
    (applyRenderEvents s
      (cubeFaceIdx.map GpuRaysRenderEvent.enableFirstPass))
  have hE2 : applyRenderEvents s
      (UpdateRenderTarget1stPass cubeFaceIdx ++
        [ GpuRaysRenderEvent.enableSecondPass ])
      = applyRenderEvent
          (applyRenderEvents s (UpdateRenderTarget1stPass cubeFaceIdx))
          GpuRaysRenderEvent.enableSecondPass := by
    rw [applyRenderEvents_append]
    rfl
  have hfinal : applyRenderEvents s (RenderTrace cubeFaceIdx)
      = applyRenderEvents
          (applyRenderEvents s (UpdateRenderTarget1stPass cubeFaceIdx))
          UpdateRenderTarget2ndPass := by
    unfold RenderTrace
    rw [applyRenderEvents_append]
  refine ⟨?_, hA.1, hA.2.2, ?_, ?_, ?_, ?_, ?_⟩
  · unfold RenderTrace UpdateRenderTarget1stPass UpdateRenderTarget2ndPass
    simp [List.append_assoc]
  · intro f hf
    rw [hE2]
    have : (applyRenderEvent
        (applyRenderEvents s (UpdateRenderTarget1stPass cubeFaceIdx))
        GpuRaysRenderEvent.enableSecondPass).firstPass
      = (applyRenderEvents s
          (UpdateRenderTarget1stPass cubeFaceIdx)).firstPass := rfl
    rw [this, hU]
    exact hD.1 f hf
  · rw [hE2]
    rfl
  · intro f hf
    rw [hfinal]
    have : (applyRenderEvents
        (applyRenderEvents s (UpdateRenderTarget1stPass cubeFaceIdx))
        UpdateRenderTarget2ndPass).firstPass
      = (applyRenderEvents s
          (UpdateRenderTarget1stPass cubeFaceIdx)).firstPass := rfl
    rw [this, hU]
    exact hD.1 f hf
  · rw [hfinal]
    rfl
  · intro g hg
    rw [hfinal]
    have : (applyRenderEvents
        (applyRenderEvents s (UpdateRenderTarget1stPass cubeFaceIdx))
        UpdateRenderTarget2ndPass).firstPass
      = (applyRenderEvents s
          (UpdateRenderTarget1stPass cubeFaceIdx)).firstPass := rfl
    rw [this, hU, hD.2.1 g hg, hA.2.1 g hg]

/-- Witness for C4 with faces `[0, 5]` from the all-disabled state. -/
theorem Render_two_pass_order_witness :
    (applyRenderEvents ⟨fun _ => false, false⟩
      (RenderTrace [ 0, 5 ])).secondPass = false ∧
    (applyRenderEvents ⟨fun _ => false, false⟩
      (RenderTrace [ 0, 5 ])).firstPass 0 = false ∧
    (applyRenderEvents ⟨fun _ => false, false⟩
      (RenderTrace [ 0, 5 ])).firstPass 5 = false := by
  have h := Render_two_pass_order [ 0, 5 ] ⟨fun _ => false, false⟩
  exact ⟨h.2.2.2.2.2.2.1,
    h.2.2.2.2.2.1 0 (by simp), h.2.2.2.2.2.1 5 (by simp)⟩

/-- A fired `newGpuRaysFrame` event: frame data, width, height, channel
count, format string. -/
structure GpuRaysFrameEvent where
  frame : List ℚ
  width : ℕ
  height : ℕ
  channels : ℕ
  format : String
  deriving DecidableEq

/-- The observable state of an `Ogre2GpuRays` relevant to `PostRender`,
`Data` and `Copy`: the channel count set in the constructor, the
second-pass size (`w2nd`, `h2nd`), the two CPU float buffers and the
events fired so far. -/
structure GpuRaysState where
  channels : ℕ
  w2nd : ℕ
  h2nd : ℕ
  gpuRaysBuffer : Option (List ℚ)
  gpuRaysScan : Option (List ℚ)
  firedEvents : List GpuRaysFrameEvent

/-- `Ogre2GpuRays::Ogre2GpuRays` (lines 296-308): the constructor sets
`channels = 3` (r = depth, g = retro, b = n/a); the buffers start null. -/
def mkOgre2GpuRays : GpuRaysState :=
  { channels := 3, w2nd := 0, h2nd := 0, gpuRaysBuffer := none,
    gpuRaysScan := none, firedEvents := [] }

/-- `Ogre2GpuRays::SetRangeCount` (lines 1274-1279). -/
def SetRangeCount (s : GpuRaysState) (w h : ℕ) : GpuRaysState :=
  { s with w2nd := w, h2nd := h }

/-- `Ogre2GpuRays::PostRender` (lines 1166-1248): copy
`w2nd * h2nd * channels` floats from the second-pass texture into
`gpuRaysBuffer`, copy them on into `gpuRaysScan`, and fire
`newGpuRaysFrame` with width, height, the channel count and format
string `PF_FLOAT32_RGB`.  `secondPassTexture` is the blitted texture
content, as a flat float list. -/
def PostRender (s : GpuRaysState) (secondPassTexture : List ℚ) :
    GpuRaysState :=
  let width := s.w2nd
  let height := s.h2nd
  let len := width * height * s.channels
  let buffer := secondPassTexture.take len
  { s with
    gpuRaysBuffer := some buffer,
    gpuRaysScan := some buffer,
    firedEvents := s.firedEvents ++
      [ { frame := buffer, width := width, height := height,
          channels := s.channels, format := "PF_FLOAT32_RGB" } ] }

/-- `Ogre2GpuRays::Data` (lines 1250-1254): returns `gpuRaysScan`. -/
def Data (s : GpuRaysState) : Option (List ℚ) :=
  s.gpuRaysScan

/-- `Ogre2GpuRays::Copy` (lines 1256-1263): `memcpy` of
`w2nd * h2nd * 3` floats from `gpuRaysScan` into the destination,
leaving the rest of the destination untouched (`none` when the scan
buffer is still null). -/
def Copy (s : GpuRaysState) (dest : List ℚ) : Option (List ℚ) :=
  s.gpuRaysScan.map (fun scan =>
    scan.take (s.w2nd * s.h2nd * 3) ++ dest.drop (s.w2nd * s.h2nd * 3))

/-- C5: after `PostRender`, the `newGpuRaysFrame` event has been fired
with width `w2nd`, height `h2nd`, 3 channels and format
`PF_FLOAT32_RGB`; `Data` returns a buffer of `w2nd * h2nd * 3` floats
copied from the second-pass texture; `Copy` writes exactly
`w2nd * h2nd * 3` floats into the destination; and the channel count of
an `Ogre2GpuRays` is always 3. -/
theorem PostRender_frame_spec (s : GpuRaysState)
    (secondPassTexture : List ℚ)
    (hch : s.channels = 3)
    (htex : s.w2nd * s.h2nd * 3 ≤ secondPassTexture.length) :
    (PostRender s secondPassTexture).firedEvents = s.firedEvents ++
      [ { frame := secondPassTexture.take (s.w2nd * s.h2nd * 3),
          width := s.w2nd, height := s.h2nd, channels := 3,
          format := "PF_FLOAT32_RGB" } ] ∧
    Data (PostRender s secondPassTexture)
      = some (secondPassTexture.take (s.w2nd * s.h2nd * 3)) ∧
    (∀ buf, Data (PostRender s secondPassTexture) = some buf →
      buf.length = s.w2nd * s.h2nd * 3) ∧
    (∀ dest : List ℚ,
      Copy (PostRender s secondPassTexture) dest =
        some (secondPassTexture.take (s.w2nd * s.h2nd * 3) ++
          dest.drop (s.w2nd * s.h2nd * 3)) ∧
      (s.w2nd * s.h2nd * 3 ≤ dest.length →
        ∀ out, Copy (PostRender s secondPassTexture) dest = some out →
          out.length = dest.length ∧
          out.take (s.w2nd * s.h2nd * 3)
            = secondPassTexture.take (s.w2nd * s.h2nd * 3) ∧
          out.drop (s.w2nd * s.h2nd * 3)
            = dest.drop (s.w2nd * s.h2nd * 3))) ∧
    (PostRender s secondPassTexture).channels = 3 ∧
    mkOgre2GpuRays.channels = 3 := by
  have hbuf : (secondPassTexture.take (s.w2nd * s.h2nd * 3)).length
      = s.w2nd * s.h2nd * 3 := by
    rw [List.length_take]
    omega
  refine ⟨?_, ?_, ?_, ?_, hch, rfl⟩
  · simp [PostRender, hch]
  · simp [PostRender, Data, hch]
  · intro buf hb
    simp [PostRender, Data, hch] at hb
    rw [← hb]
    exact hbuf
  · intro dest
    have hscan : (PostRender s secondPassTexture).gpuRaysScan
        = some (secondPassTexture.take (s.w2nd * s.h2nd * 3)) := by
      simp [PostRender, hch]
    have hw : (PostRender s secondPassTexture).w2nd = s.w2nd := rfl
    have hh : (PostRender s secondPassTexture).h2nd = s.h2nd := rfl
    have hcopy : Copy (PostRender s secondPassTexture) dest =
        some (secondPassTexture.take (s.w2nd * s.h2nd * 3) ++
          dest.drop (s.w2nd * s.h2nd * 3)) := by
      rw [Copy, hscan, hw, hh]
      simp [List.take_take]
    refine ⟨hcopy, ?_⟩
    intro hdest out hout
    rw [hcopy] at hout
    have hout' : out = secondPassTexture.take (s.w2nd * s.h2nd * 3) ++
        dest.drop (s.w2nd * s.h2nd * 3) := by
      exact Option.some.inj hout.symm
    subst hout'
    refine ⟨?_, ?_, ?_⟩
    · rw [List.length_append, hbuf, List.length_drop]
      omega
    · rw [List.take_append_of_le_length (by rw [hbuf]),
        List.take_of_length_le (by rw [hbuf])]
    · have hnil : List.drop (s.w2nd * s.h2nd * 3)
          (List.take (s.w2nd * s.h2nd * 3) secondPassTexture) = [] :=
        List.drop_eq_nil_of_le (by rw [hbuf])
      rw [List.drop_append_of_le_length (by rw [hbuf]), hnil]
      simp [hbuf]

/-- Witness for C5 on a concrete 1x2 state. -/
theorem PostRender_frame_spec_witness :
    ((SetRangeCount mkOgre2GpuRays 2 1).channels = 3 ∧
      (SetRangeCount mkOgre2GpuRays 2 1).w2nd *
        (SetRangeCount mkOgre2GpuRays 2 1).h2nd * 3
        ≤ ([ 1, 2, 3, 4, 5, 6, 7 ] : List ℚ).length) ∧
    Data (PostRender (SetRangeCount mkOgre2GpuRays 2 1)
        [ 1, 2, 3, 4, 5, 6, 7 ])
      = some [ 1, 2, 3, 4, 5, 6 ] := by
  have h := PostRender_frame_spec (SetRangeCount mkOgre2GpuRays 2 1)
    [ 1, 2, 3, 4, 5, 6, 7 ] rfl (by norm_num [SetRangeCount, mkOgre2GpuRays])
  refine ⟨⟨rfl, by norm_num [SetRangeCount, mkOgre2GpuRays]⟩, ?_⟩
  rw [h.2.1]
  rfl

/-- An Ogre movable object as seen by
`Ogre2GlobalIlluminationVct::Build`: whether `getVisible()` holds and
whether `dynamic_cast<Ogre::Item *>` succeeds. -/
structure OgreMovableObject where
  id : ℕ
  visible : Bool
  isItem : Bool
  deriving DecidableEq

/-- The two entity memory managers of the scene manager
(`SCENE_DYNAMIC = 0`, `SCENE_STATIC = 1`), each a list of render queues
of objects. -/
structure VctSceneManager where
  dynamicQueues : List (List OgreMovableObject)
  staticQueues : List (List OgreMovableObject)

/-- `sceneManager->_getEntityMemoryManager(type)`. -/
def getEntityMemoryManager (sm : VctSceneManager) (t : ℕ) :
    List (List OgreMovableObject) :=
  if t = 0 then sm.dynamicQueues else sm.staticQueues

/-- The items added to the voxelizer by the loops of `Build`
(src/unnamed/part_002, lines 255-290): for each memory-manager type whose
bit is set in the participating-visuals mask, every visible object of
every render queue that is an `Ogre::Item`. -/
def collectVoxelizableItems (sm : VctSceneManager)
    (participatingVisuals : ℕ) : List ℕ :=
  (List.range 2).flatMap (fun t =>
    if (1 <<< t) &&& participatingVisuals = 0 then []
    else (getEntityMemoryManager sm t).flatMap (fun queue =>
      (queue.filter (fun o => o.visible && o.isItem)).map (fun o => o.id)))

/-- State of the `Ogre2GlobalIlluminationVctPrivate` data relevant to
`Build`: the voxelizer's item list, the (optional) `VctLighting` object
recording the anisotropy it was created with, the octant counts and the
participating-visuals mask. -/
structure GiVctState where
  voxelizerItems : List ℕ
  vctLighting : Option Bool
  octants : ℕ × ℕ × ℕ
  participatingVisuals : ℕ
  anisotropic : Bool

/-- Calls issued by `Build` to the Ogre voxelizer / lighting objects
(`dividideOctants` is the Ogre spelling). -/
inductive VctBuildEvent where
  | updateSceneGraph
  | removeAllItems
  | addItem (id : ℕ)
  | autoCalculateRegion
  | dividideOctants (x y z : ℕ)
  | buildVoxels
  | createVctLighting (anisotropic : Bool)
  | lightingChanged
  | syncModeVisualizationMode
  deriving DecidableEq

/-- `Ogre2GlobalIlluminationVct::Build` (src/unnamed/part_002, lines
246-312): update the scene graph, remove all voxelizer items, add the
participating visible items, auto-calculate the region, divide octants,
build the voxels; create the `VctLighting` (with the configured
anisotropy) on the first build only; finally update lighting and debug
visualisation. -/
def Build (s : GiVctState) (sm : VctSceneManager) :
    GiVctState × List VctBuildEvent :=
  let items := collectVoxelizableItems sm s.participatingVisuals
  ({ s with
      voxelizerItems := items,
      vctLighting :=
        if s.vctLighting = none then some s.anisotropic
        else s.vctLighting },
   [ VctBuildEvent.updateSceneGraph, VctBuildEvent.removeAllItems ] ++
     items.map VctBuildEvent.addItem ++
     [ VctBuildEvent.autoCalculateRegion,
       VctBuildEvent.dividideOctants s.octants.1 s.octants.2.1
         s.octants.2.2,
       VctBuildEvent.buildVoxels ] ++
     (if s.vctLighting = none then
        [ VctBuildEvent.createVctLighting s.anisotropic ]
      else []) ++
     [ VctBuildEvent.lightingChanged,
       VctBuildEvent.syncModeVisualizationMode ])

lemma mem_collectVoxelizableItems (sm : VctSceneManager) (mask x : ℕ) :
    x ∈ collectVoxelizableItems sm mask ↔
      ∃ t < 2, (1 <<< t) &&& mask ≠ 0 ∧
        ∃ q ∈ getEntityMemoryManager sm t, ∃ o ∈ q,
          o.visible = true ∧ o.isItem = true ∧ o.id = x := by
  unfold collectVoxelizableItems
  rw [List.mem_flatMap]
  constructor
  · rintro ⟨t, ht, hx⟩
    rw [List.mem_range] at ht
    by_cases hbit : (1 <<< t) &&& mask = 0
    · rw [if_pos hbit] at hx
      simp at hx
    · rw [if_neg hbit, List.mem_flatMap] at hx
      obtain ⟨q, hq, hx⟩ := hx
      rw [List.mem_map] at hx
      obtain ⟨o, ho, rfl⟩ := hx
      rw [List.mem_filter, Bool.and_eq_true] at ho
      exact ⟨t, ht, hbit, q, hq, o, ho.1, ho.2.1, ho.2.2, rfl⟩
  · rintro ⟨t, ht, hbit, q, hq, o, ho, hvis, hitem, rfl⟩
    refine ⟨t, List.mem_range.mpr ht, ?_⟩
    rw [if_neg hbit, List.mem_flatMap]
    refine ⟨q, hq, ?_⟩
    rw [List.mem_map]
    refine ⟨o, List.mem_filter.mpr ⟨ho, ?_⟩, rfl⟩
    rw [Bool.and_eq_true]
    exact ⟨hvis, hitem⟩

/-- C6: `Build()` removes all voxelizer items, then adds exactly the
visible `Ogre::Item`s whose static/dynamic category bit is set in the
participating-visuals mask, auto-calculates the region, divides it into
the configured octant counts and builds the voxels; on the first build it
also creates the `VctLighting` with the configured anisotropy. -/
theorem Build_voxelizer_spec (s : GiVctState) (sm : VctSceneManager) :
    (∀ x, x ∈ (Build s sm).1.voxelizerItems ↔
      ∃ t < 2, (1 <<< t) &&& s.participatingVisuals ≠ 0 ∧
        ∃ q ∈ getEntityMemoryManager sm t, ∃ o ∈ q,
          o.visible = true ∧ o.isItem = true ∧ o.id = x) ∧
    (Build s sm).2 =
      [ VctBuildEvent.updateSceneGraph, VctBuildEvent.removeAllItems ] ++
        ((Build s sm).1.voxelizerItems).map VctBuildEvent.addItem ++
        [ VctBuildEvent.autoCalculateRegion,
          VctBuildEvent.dividideOctants s.octants.1 s.octants.2.1
            s.octants.2.2,
          VctBuildEvent.buildVoxels ] ++
        (if s.vctLighting = none then
           [ VctBuildEvent.createVctLighting s.anisotropic ]
         else []) ++
        [ VctBuildEvent.lightingChanged,
          VctBuildEvent.syncModeVisualizationMode ] ∧
    (s.vctLighting = none →
      (Build s sm).1.vctLighting = some s.anisotropic) ∧
    (s.vctLighting ≠ none →
      (Build s sm).1.vctLighting = s.vctLighting) := by
  refine ⟨?_, rfl, ?_, ?_⟩
  · intro x
    exact mem_collectVoxelizableItems sm s.participatingVisuals x
  · intro h
    show (if s.vctLighting = none then some s.anisotropic
      else s.vctLighting) = some s.anisotropic
    rw [if_pos h]
  · intro h
    show (if s.vctLighting = none then some s.anisotropic
      else s.vctLighting) = s.vctLighting
    rw [if_neg h]

/-- Witness for C6: one visible static item voxelized under the
static-visuals mask. -/
theorem Build_voxelizer_spec_witness :
    (7 ∈ (Build
        { voxelizerItems := [], vctLighting := none, octants := (1, 1, 1),
          participatingVisuals := 2, anisotropic := true }
        { dynamicQueues := [], staticQueues := [ [ ⟨7, true, true⟩ ] ] }
      ).1.voxelizerItems) ∧
    (Build
        { voxelizerItems := [], vctLighting := none, octants := (1, 1, 1),
          participatingVisuals := 2, anisotropic := true }
        { dynamicQueues := [], staticQueues := [ [ ⟨7, true, true⟩ ] ] }
      ).1.vctLighting = some true := by
  have h := Build_voxelizer_spec
    { voxelizerItems := [], vctLighting := none, octants := (1, 1, 1),
      participatingVisuals := 2, anisotropic := true }
    { dynamicQueues := [], staticQueues := [ [ ⟨7, true, true⟩ ] ] }
  refine ⟨?_, h.2.2.1 rfl⟩
  refine (h.1 7).mpr ⟨1, by norm_num, by decide, [ ⟨7, true, true⟩ ],
    ?_, ⟨7, true, true⟩, by simp, rfl, rfl, rfl⟩
  simp [getEntityMemoryManager]

/-- `main` of `lens_flare_fs.glsl` (lines 73-101).  `lensflare` abstracts
the procedural flare function of lines 32-71 (built from GLSL
`length` / `pow` / `mix`), `srcTex` abstracts `texture2D(srcTex, ·)`,
`vpAspect` is the `vpAspectRatio` uniform and `texCoord` the fragment's
`gl_TexCoord[0].xy`; the result is `gl_FragColor`. -/
def lensFlareFsMain (lensflare : Vec2 → Vec2 → Vec3)
    (srcTex : Vec2 → Vec4) (vpAspect : ℚ) (lightPos : Vec3)
    (color : Vec3) (texCoord : Vec2) : Vec4 :=
  if lightPos.z < 0 then
    -- light is behind the view
    srcTex texCoord
  else
    -- flip y
    let pos0 : Vec3 := ⟨lightPos.x, lightPos.y * (-1), lightPos.z⟩
    let uv0 : Vec2 := ⟨texCoord.x - 1 / 2, texCoord.y - 1 / 2⟩
    -- scale lightPos to be same range as uv
    let pos1 : Vec3 :=
      ⟨pos0.x * (1 / 2), pos0.y * (1 / 2), pos0.z * (1 / 2)⟩
    -- fix aspect ratio
    let uv : Vec2 := ⟨uv0.x * vpAspect, uv0.y⟩
    let pos : Vec2 := ⟨pos1.x * vpAspect, pos1.y⟩
    let finalColor : Vec3 :=
      ⟨color.x * (lensflare uv pos).x, color.y * (lensflare uv pos).y,
        color.z * (lensflare uv pos).z⟩
    let src := srcTex texCoord
    ⟨src.x + finalColor.x, src.y + finalColor.y, src.z + finalColor.z,
      src.w + 1⟩

/-- C7: when the light is behind the view (`lightPos.z < 0`) the output
is the source texture sample unchanged; otherwise it is the source
sample plus `(color * lensflare(uv, pos), 1.0)` where `uv` is the
texture coordinate shifted by `-0.5` and `pos` is `lightPos` with `y`
negated, both scaled by `0.5`, each with the x component multiplied by
the viewport aspect ratio. -/
theorem lensFlareFsMain_branches (lensflare : Vec2 → Vec2 → Vec3)
    (srcTex : Vec2 → Vec4) (vpAspect : ℚ) (lightPos : Vec3)
    (color : Vec3) (texCoord : Vec2) :
    (lightPos.z < 0 →
      lensFlareFsMain lensflare srcTex vpAspect lightPos color texCoord
        = srcTex texCoord) ∧
    (¬ lightPos.z < 0 →
      lensFlareFsMain lensflare srcTex vpAspect lightPos color texCoord
        = ⟨(srcTex texCoord).x + color.x * (lensflare
              ⟨(texCoord.x - 1 / 2) * vpAspect, texCoord.y - 1 / 2⟩
              ⟨lightPos.x * (1 / 2) * vpAspect,
                -lightPos.y * (1 / 2)⟩).x,
            (srcTex texCoord).y + color.y * (lensflare
              ⟨(texCoord.x - 1 / 2) * vpAspect, texCoord.y - 1 / 2⟩
              ⟨lightPos.x * (1 / 2) * vpAspect,
                -lightPos.y * (1 / 2)⟩).y,
            (srcTex texCoord).z + color.z * (lensflare
              ⟨(texCoord.x - 1 / 2) * vpAspect, texCoord.y - 1 / 2⟩
              ⟨lightPos.x * (1 / 2) * vpAspect,
                -lightPos.y * (1 / 2)⟩).z,
            (srcTex texCoord).w + 1⟩) := by
  constructor
  · intro h
    unfold lensFlareFsMain
    rw [if_pos h]
  · intro h
    unfold lensFlareFsMain
    rw [if_neg h]
    dsimp only
    rw [show lightPos.y * (-1) * (1 / 2) = -lightPos.y * (1 / 2)
      from by ring]

/-- Witness for C7 in the light-behind-the-view branch. -/
theorem lensFlareFsMain_branches_witness :
    ((-1 : ℚ) < 0) ∧
    lensFlareFsMain (fun uv pos => ⟨uv.x + pos.x, uv.y, pos.y⟩)
        (fun t => ⟨t.x, t.y, 0, 0⟩) 2 ⟨1, 2, -1⟩ ⟨1, 1, 1⟩
        ⟨1 / 4, 1 / 3⟩
      = ⟨1 / 4, 1 / 3, 0, 0⟩ := by
  have h := lensFlareFsMain_branches
    (fun uv pos => ⟨uv.x + pos.x, uv.y, pos.y⟩)
    (fun t => ⟨t.x, t.y, 0, 0⟩) 2 ⟨1, 2, -1⟩ ⟨1, 1, 1⟩ ⟨1 / 4, 1 / 3⟩
  exact ⟨by norm_num, h.1 (by norm_num)⟩

/-- An Ogre sub-item as touched by `Ogre2LaserRetroMaterialSwitcher`:
custom-parameter slot 10 and the current HLMS datablock.  Datablocks /
materials are identified by numeric ids; `datablock` is what
`getDatablock()` returns and what `setMaterial` / `setDatablock`
overwrite. -/
structure OgreSubItem where
  id : ℕ
  hasCustomParam10 : Bool
  customParam10 : Option Vec4
  datablock : ℕ
  deriving DecidableEq

/-- An Ogre item with its resolved `laser_retro` user datum: `none` when
the visual carries no usable value, in which case the C++ `retroValue`
stays at `-1.0`. -/
structure OgreItem where
  laserRetro : Option ℚ
  visibilityFlags : ℕ
  subItems : List OgreSubItem
  deriving DecidableEq

/-- The `retroValue` resolved by `cameraPreRenderScene` (lines 226-251). -/
def retroValueOf (it : OgreItem) : ℚ := it.laserRetro.getD (-1)

/-- Per-sub-item work inside the `retroValue >= 0` branch (lines
258-275): set custom parameter 10 (only when not already present) to the
clamped retro colour `colorVal`, then switch the material to the
laser-retro source material `laserRetroDb`. -/
def switchSubItem (laserRetroDb : ℕ) (colorVal : ℚ) (si : OgreSubItem) :
    OgreSubItem :=
  let si1 := if si.hasCustomParam10 then si
    else { si with hasCustomParam10 := true,
                   customParam10 := some ⟨colorVal, colorVal, colorVal, 1⟩ }
  { si1 with datablock := laserRetroDb }

/-- `Ogre2LaserRetroMaterialSwitcher::cameraPreRenderScene` on one item
(lines 203-277): items whose retro value is negative (or absent) are
left untouched and record nothing; otherwise the visibility flag
`0x01000000` is added, every sub-item's original datablock is recorded
and its material switched, and missing custom parameters are written
with colour `min(retroValue, 2000) / 2000`. -/
def cameraPreRenderItem (laserRetroDb : ℕ) (it : OgreItem) :
    OgreItem × List (ℕ × ℕ) :=
  let retroValue := retroValueOf it
  if 0 ≤ retroValue then
    let clamped := if 2000 < retroValue then 2000 else retroValue
    let colorVal := clamped / 2000
    ({ it with
        visibilityFlags := it.visibilityFlags ||| 0x01000000,
        subItems := it.subItems.map (switchSubItem laserRetroDb colorVal) },
     it.subItems.map (fun si => (si.id, si.datablock)))
  else (it, [])

/-- `cameraPreRenderScene` over the whole item iterator: the updated
items and the accumulated `datablockMap` of (sub-item, original
datablock) entries. -/
def cameraPreRenderScene (laserRetroDb : ℕ) (scene : List OgreItem) :
    List OgreItem × List (ℕ × ℕ) :=
  (scene.map (fun it => (cameraPreRenderItem laserRetroDb it).1),
   scene.flatMap (fun it => (cameraPreRenderItem laserRetroDb it).2))

/-- `subItem->setDatablock(db)` on the sub-item with the given id. -/
def setDatablockById (i db : ℕ) (scene : List OgreItem) : List OgreItem :=
  scene.map (fun it =>
    { it with subItems := it.subItems.map (fun si =>
        if si.id = i then { si with datablock := db } else si) })

/-- `Ogre2LaserRetroMaterialSwitcher::cameraPostRenderScene` (lines
284-293): restore every recorded datablock. -/
def cameraPostRenderScene (entries : List (ℕ × ℕ))
    (scene : List OgreItem) : List OgreItem :=
  entries.foldl (fun sc e => setDatablockById e.1 e.2 sc) scene

lemma switchSubItem_id (laserRetroDb : ℕ) (colorVal : ℚ)
    (si : OgreSubItem) :
    (switchSubItem laserRetroDb colorVal si).id = si.id := by
  unfold switchSubItem
  split <;> rfl

lemma switchSubItem_datablock (laserRetroDb : ℕ) (colorVal : ℚ)
    (si : OgreSubItem) :
    (switchSubItem laserRetroDb colorVal si).datablock = laserRetroDb := rfl

/-- C8: a sub-item's material is replaced by the laser-retro source
material only when the item's `laser_retro` value is `≥ 0` (absent or
negative values leave the item untouched), and the custom parameter
written at index 10 is `min(retroValue, 2000) / 2000` replicated into
RGB with alpha 1, so every written colour component lies in `[0, 1]`. -/
theorem cameraPreRenderScene_retro_spec (laserRetroDb : ℕ)
    (it : OgreItem) :
    (retroValueOf it < 0 →
      cameraPreRenderItem laserRetroDb it = (it, [])) ∧
    (0 ≤ retroValueOf it →
      (cameraPreRenderItem laserRetroDb it).1.subItems
        = it.subItems.map (switchSubItem laserRetroDb
            (min (retroValueOf it) 2000 / 2000)) ∧
      ∀ si ∈ it.subItems,
        (switchSubItem laserRetroDb (min (retroValueOf it) 2000 / 2000)
            si).datablock = laserRetroDb ∧
        (si.hasCustomParam10 = false →
          (switchSubItem laserRetroDb (min (retroValueOf it) 2000 / 2000)
              si).customParam10
            = some ⟨min (retroValueOf it) 2000 / 2000,
                    min (retroValueOf it) 2000 / 2000,
                    min (retroValueOf it) 2000 / 2000, 1⟩ ∧
          0 ≤ min (retroValueOf it) 2000 / 2000 ∧
          min (retroValueOf it) 2000 / 2000 ≤ 1) ∧
        (si.hasCustomParam10 = true →
          (switchSubItem laserRetroDb (min (retroValueOf it) 2000 / 2000)
              si).customParam10 = si.customParam10)) := by
  constructor
  · intro h
    unfold cameraPreRenderItem
    rw [if_neg (not_le.mpr h)]
  · intro h
    have hclamp : (if 2000 < retroValueOf it then 2000
        else retroValueOf it) = min (retroValueOf it) 2000 := by
      rcases le_or_lt (retroValueOf it) 2000 with hle | hlt
      · rw [if_neg (not_lt.mpr hle), min_eq_left hle]
      · rw [if_pos hlt, min_eq_right (le_of_lt hlt)]
    constructor
    · show (cameraPreRenderItem laserRetroDb it).1.subItems = _
      unfold cameraPreRenderItem
      rw [if_pos h]
      dsimp only
      rw [hclamp]
    · intro si hsi
      refine ⟨switchSubItem_datablock _ _ _, ?_, ?_⟩
      · intro hno
        refine ⟨?_, ?_, ?_⟩
        · unfold switchSubItem
          rw [hno]
          rfl
        · apply div_nonneg _ (by norm_num)
          exact le_min h (by norm_num)
        · rw [div_le_one (by norm_num)]
          exact min_le_right _ _
      · intro hyes
        unfold switchSubItem
        rw [hyes]
        rfl

/-- Witness for C8 at a concrete item with retro value 3000 and one
sub-item without a prior custom parameter. -/
theorem cameraPreRenderScene_retro_spec_witness :
    (0 : ℚ) ≤ retroValueOf
      { laserRetro := some 3000, visibilityFlags := 0,
        subItems := [ { id := 1, hasCustomParam10 := false,
                        customParam10 := none, datablock := 7 } ] } ∧
    (switchSubItem 42 (min (retroValueOf
        { laserRetro := some 3000, visibilityFlags := 0,
          subItems := [ { id := 1, hasCustomParam10 := false,
                          customParam10 := none, datablock := 7 } ] })
        2000 / 2000)
      { id := 1, hasCustomParam10 := false, customParam10 := none,
        datablock := 7 }).datablock = 42 ∧
    (switchSubItem 42 (min (retroValueOf
        { laserRetro := some 3000, visibilityFlags := 0,
          subItems := [ { id := 1, hasCustomParam10 := false,
                          customParam10 := none, datablock := 7 } ] })
        2000 / 2000)
      { id := 1, hasCustomParam10 := false, customParam10 := none,
        datablock := 7 }).customParam10 = some ⟨1, 1, 1, 1⟩ := by
  have h := cameraPreRenderScene_retro_spec 42
    { laserRetro := some 3000, visibilityFlags := 0,
      subItems := [ { id := 1, hasCustomParam10 := false,
                      customParam10 := none, datablock := 7 } ] }
  have hretro : (0 : ℚ) ≤ retroValueOf
      { laserRetro := some 3000, visibilityFlags := 0,
        subItems := [ { id := 1, hasCustomParam10 := false,
                        customParam10 := none, datablock := 7 } ] } := by
    norm_num [retroValueOf]
  have hsub := (h.2 hretro).2
    { id := 1, hasCustomParam10 := false, customParam10 := none,
      datablock := 7 } (by simp)
  refine ⟨hretro, hsub.1, ?_⟩
  rw [(hsub.2.1 rfl).1]
  have hmin : min (retroValueOf
      { laserRetro := some 3000, visibilityFlags := 0,
        subItems := [ { id := 1, hasCustomParam10 := false,
                        customParam10 := none, datablock := 7 } ] })
      2000 / 2000 = 1 := by
    norm_num [retroValueOf]
  rw [hmin]

/-- The value the fold of `cameraPostRenderScene` leaves on a sub-item:
the last entry for the given id, if any. -/
def lookupLast (entries : List (ℕ × ℕ)) (i : ℕ) : Option ℕ :=
  entries.foldl (fun acc e => if e.1 = i then some e.2 else acc) none

lemma lookupLast_foldl (i : ℕ) : ∀ (es : List (ℕ × ℕ)) (acc : Option ℕ),
    es.foldl (fun a e => if e.1 = i then some e.2 else a) acc
      = (lookupLast es i).or acc
  | [], acc => by
    simp [lookupLast]
  | e :: es, acc => by
    show es.foldl _ (if e.1 = i then some e.2 else acc) = _
    rw [lookupLast_foldl i es (if e.1 = i then some e.2 else acc)]
    have hcons : lookupLast (e :: es) i
        = (lookupLast es i).or (if e.1 = i then some e.2 else none) := by
      show es.foldl _ (if e.1 = i then some e.2 else none) = _
      rw [lookupLast_foldl i es (if e.1 = i then some e.2 else none)]
    rw [hcons, Option.or_assoc]
    by_cases he : e.1 = i
    · rw [if_pos he, if_pos he]
      rfl
    · rw [if_neg he, if_neg he]
      rfl

lemma lookupLast_cons (e : ℕ × ℕ) (es : List (ℕ × ℕ)) (i : ℕ) :
    lookupLast (e :: es) i
      = (lookupLast es i).or (if e.1 = i then some e.2 else none) := by
  show es.foldl _ (if e.1 = i then some e.2 else none) = _
  rw [lookupLast_foldl i es (if e.1 = i then some e.2 else none)]

lemma lookupLast_append (a b : List (ℕ × ℕ)) (i : ℕ) :
    lookupLast (a ++ b) i = (lookupLast b i).or (lookupLast a i) := by
  show (a ++ b).foldl _ none = _
  rw [List.foldl_append]
  exact lookupLast_foldl i b (a.foldl _ none)

lemma lookupLast_getD (x y : Option ℕ) (d : ℕ) :
    (x.or y).getD d = x.getD (y.getD d) := by
  cases x <;> simp [Option.or]

lemma lookupLast_eq_none : ∀ (es : List (ℕ × ℕ)) (i : ℕ),
    (∀ e ∈ es, e.1 ≠ i) → lookupLast es i = none
  | [], _, _ => rfl
  | e :: es, i, h => by
    rw [lookupLast_cons,
      lookupLast_eq_none es i (fun x hx => h x (List.mem_cons_of_mem e hx)),
      if_neg (h e (List.mem_cons_self e es))]
    rfl

lemma lookupLast_of_mem_nodup : ∀ (es : List (ℕ × ℕ)),
    (es.map Prod.fst).Nodup → ∀ (i v : ℕ), (i, v) ∈ es →
      lookupLast es i = some v
  | [], _, i, v, hmem => absurd hmem (List.not_mem_nil (i, v))
  | e :: es, hnodup, i, v, hmem => by
    rw [List.map_cons, List.nodup_cons] at hnodup
    rw [lookupLast_cons]
    rcases List.mem_cons.mp hmem with heq | hrest
    · have hkey : e.1 = i := by
        rw [← heq]
      have hval : e.2 = v := by
        rw [← heq]
      have hnone : lookupLast es i = none := by
        apply lookupLast_eq_none
        intro x hx hxi
        apply hnodup.1
        rw [hkey, ← hxi]
        exact List.mem_map_of_mem Prod.fst hx
      rw [hnone, if_pos hkey, hval]
      rfl
    · rw [lookupLast_of_mem_nodup es hnodup.2 i v hrest]
      rfl

/-- `cameraPostRenderScene` acts pointwise: each sub-item ends with the
last recorded datablock for its id, or keeps its current one. -/
lemma cameraPostRenderScene_eq : ∀ (entries : List (ℕ × ℕ))
    (scene : List OgreItem),
    cameraPostRenderScene entries scene = scene.map (fun it =>
      { it with subItems := it.subItems.map (fun si =>
          { si with
            datablock := (lookupLast entries si.id).getD si.datablock }) })
  | [], scene => by
    have hG : (fun si : OgreSubItem =>
        { si with
          datablock := (lookupLast [] si.id).getD si.datablock }) =
        fun si => si := funext (fun si => rfl)
    show scene = _
    rw [hG]
    simp

  | e :: rest, scene => by
    show cameraPostRenderScene rest (setDatablockById e.1 e.2 scene) = _
    rw [cameraPostRenderScene_eq rest (setDatablockById e.1 e.2 scene)]
    unfold setDatablockById
    rw [List.map_map]
    apply List.map_congr_left
    intro it _
    dsimp only [Function.comp]
    congr 1
    rw [List.map_map]
    apply List.map_congr_left
    intro si _
    dsimp only [Function.comp]
    by_cases hsi : si.id = e.1
    · rw [if_pos hsi]
      have hkey : (lookupLast (e :: rest) si.id).getD si.datablock
          = (lookupLast rest si.id).getD e.2 := by
        rw [lookupLast_cons, lookupLast_getD, if_pos hsi.symm]
        rfl
      rw [hkey]
    · rw [if_neg hsi]
      have hkey : (lookupLast (e :: rest) si.id).getD si.datablock
          = (lookupLast rest si.id).getD si.datablock := by
        rw [lookupLast_cons, lookupLast_getD,
          if_neg (fun h => hsi h.symm)]
        rfl
      rw [hkey]

lemma cameraPreRenderItem_neg (laserRetroDb : ℕ) (it : OgreItem)
    (h : ¬ 0 ≤ retroValueOf it) :
    cameraPreRenderItem laserRetroDb it = (it, []) := by
  unfold cameraPreRenderItem
  rw [if_neg h]

lemma cameraPreRenderItem_entries (laserRetroDb : ℕ) (it : OgreItem) :
    (cameraPreRenderItem laserRetroDb it).2
      = if 0 ≤ retroValueOf it
        then it.subItems.map (fun si => (si.id, si.datablock))
        else [] := by
  by_cases h : 0 ≤ retroValueOf it
  · unfold cameraPreRenderItem
    rw [if_pos h, if_pos h]
  · rw [cameraPreRenderItem_neg laserRetroDb it h, if_neg h]

lemma cameraPreRenderItem_pos_subItems (laserRetroDb : ℕ) (it : OgreItem)
    (h : 0 ≤ retroValueOf it) :
    (cameraPreRenderItem laserRetroDb it).1.subItems
      = it.subItems.map (switchSubItem laserRetroDb
          ((if 2000 < retroValueOf it then 2000
            else retroValueOf it) / 2000)) := by
  unfold cameraPreRenderItem
  rw [if_pos h]

lemma preEntries_keys_subset (laserRetroDb : ℕ) (scene : List OgreItem)
    (x : ℕ)
    (hx : x ∈ ((cameraPreRenderScene laserRetroDb scene).2).map Prod.fst) :
    x ∈ scene.flatMap (fun it => it.subItems.map (fun si => si.id)) := by
  obtain ⟨e, he, rfl⟩ := List.mem_map.mp hx
  obtain ⟨it, hit, he⟩ := List.mem_flatMap.mp he
  rw [cameraPreRenderItem_entries] at he
  by_cases h : 0 ≤ retroValueOf it
  · rw [if_pos h] at he
    obtain ⟨si, hsi, rfl⟩ := List.mem_map.mp he
    rw [List.mem_flatMap]
    exact ⟨it, hit, List.mem_map_of_mem _ hsi⟩
  · rw [if_neg h] at he
    exact absurd he (List.not_mem_nil e)

lemma lookupLast_preEntries (laserRetroDb : ℕ) : ∀ (scene : List OgreItem),
    (scene.flatMap (fun it =>
      it.subItems.map (fun si => si.id))).Nodup →
    ∀ it ∈ scene, ∀ si ∈ it.subItems,
      (0 ≤ retroValueOf it →
        lookupLast (cameraPreRenderScene laserRetroDb scene).2 si.id
          = some si.datablock) ∧
      (¬ 0 ≤ retroValueOf it →
        lookupLast (cameraPreRenderScene laserRetroDb scene).2 si.id
          = none)
  | [], _, it, hit, _, _ => absurd hit (List.not_mem_nil it)
  | it0 :: rest, hnodup, it, hit, si, hsi => by
    have hsplit : (cameraPreRenderScene laserRetroDb (it0 :: rest)).2
        = (cameraPreRenderItem laserRetroDb it0).2 ++
            (cameraPreRenderScene laserRetroDb rest).2 := by
      simp [cameraPreRenderScene, List.flatMap_cons]
    rw [List.flatMap_cons, List.nodup_append] at hnodup
    obtain ⟨hn0, hnrest, hdisj⟩ := hnodup
    have hL : lookupLast (cameraPreRenderScene laserRetroDb
          (it0 :: rest)).2 si.id
        = (lookupLast (cameraPreRenderScene laserRetroDb rest).2
            si.id).or
          (lookupLast (cameraPreRenderItem laserRetroDb it0).2 si.id) := by
      rw [hsplit, lookupLast_append]
    rcases List.mem_cons.mp hit with rfl | hit'
    · -- the sub-item belongs to the head item
      have hsid0 : si.id ∈ it.subItems.map (fun s => s.id) :=
        List.mem_map_of_mem _ hsi
      have hrest_none : lookupLast
          (cameraPreRenderScene laserRetroDb rest).2 si.id = none := by
        apply lookupLast_eq_none
        intro e he hei
        have hkey : e.1 ∈ ((cameraPreRenderScene laserRetroDb
            rest).2).map Prod.fst := List.mem_map_of_mem Prod.fst he
        have := preEntries_keys_subset laserRetroDb rest e.1 hkey
        rw [hei] at this
        exact hdisj hsid0 this
      constructor
      · intro h
        rw [hL, hrest_none, Option.none_or]
        rw [cameraPreRenderItem_entries, if_pos h]
        apply lookupLast_of_mem_nodup
        · rw [List.map_map]
          exact hn0
        · exact List.mem_map_of_mem _ hsi
      · intro h
        rw [hL, hrest_none, Option.none_or]
        rw [cameraPreRenderItem_entries, if_neg h]
        rfl
    · -- the sub-item belongs to an item of the tail
      have ih := lookupLast_preEntries laserRetroDb rest hnrest it hit'
        si hsi
      have hsid_rest : si.id ∈ rest.flatMap (fun i =>
          i.subItems.map (fun s => s.id)) :=
        List.mem_flatMap.mpr ⟨it, hit', List.mem_map_of_mem _ hsi⟩
      have hhead_none : lookupLast
          (cameraPreRenderItem laserRetroDb it0).2 si.id = none := by
        apply lookupLast_eq_none
        intro e he hei
        have hkey : e.1 ∈ ((cameraPreRenderItem laserRetroDb
            it0).2).map Prod.fst := List.mem_map_of_mem Prod.fst he
        rw [cameraPreRenderItem_entries] at hkey
        have hmem0 : e.1 ∈ it0.subItems.map (fun s => s.id) := by
          by_cases h0 : 0 ≤ retroValueOf it0
          · rw [if_pos h0, List.map_map] at hkey
            exact hkey
          · rw [if_neg h0] at hkey
            exact absurd hkey (List.not_mem_nil e.1)
        rw [hei] at hmem0
        exact hdisj hmem0 hsid_rest
      constructor
      · intro h
        rw [hL, ih.1 h]
        rfl
      · intro h
        rw [hL, ih.2 h, hhead_none, Option.none_or]

/-- C9: after `cameraPreRenderScene` followed by `cameraPostRenderScene`,
every entry recorded in the datablock map holds a sub-item's original
datablock, and the pre/post pair leaves every sub-item's datablock
unchanged (given globally distinct sub-items, as for Ogre pointers). -/
theorem cameraPrePostRender_restores_datablocks (laserRetroDb : ℕ)
    (scene : List OgreItem)
    (hnodup : (scene.flatMap (fun it =>
      it.subItems.map (fun si => si.id))).Nodup) :
    (∀ e ∈ (cameraPreRenderScene laserRetroDb scene).2,
      ∃ it ∈ scene, ∃ si ∈ it.subItems, e = (si.id, si.datablock)) ∧
    (cameraPostRenderScene (cameraPreRenderScene laserRetroDb scene).2
        (cameraPreRenderScene laserRetroDb scene).1).map
      (fun it => it.subItems.map (fun si => si.datablock))
      = scene.map (fun it => it.subItems.map (fun si => si.datablock)) := by
  constructor
  · intro e he
    obtain ⟨it, hit, he⟩ := List.mem_flatMap.mp he
    rw [cameraPreRenderItem_entries] at he
    by_cases h : 0 ≤ retroValueOf it
    · rw [if_pos h] at he
      obtain ⟨si, hsi, rfl⟩ := List.mem_map.mp he
      exact ⟨it, hit, si, hsi, rfl⟩
    · rw [if_neg h] at he
      exact absurd he (List.not_mem_nil e)
  · rw [cameraPostRenderScene_eq]
    have hfst : (cameraPreRenderScene laserRetroDb scene).1
        = scene.map (fun it => (cameraPreRenderItem laserRetroDb it).1) :=
      rfl
    rw [hfst, List.map_map, List.map_map]
    apply List.map_congr_left
    intro it hit
    dsimp only [Function.comp]
    rw [List.map_map]
    by_cases h : 0 ≤ retroValueOf it
    · rw [cameraPreRenderItem_pos_subItems laserRetroDb it h,
        List.map_map]
      apply List.map_congr_left
      intro si hsi
      dsimp only [Function.comp]
      rw [switchSubItem_id, switchSubItem_datablock]
      rw [(lookupLast_preEntries laserRetroDb scene hnodup it hit
        si hsi).1 h]
      rfl
    · have h1 : (cameraPreRenderItem laserRetroDb it).1 = it := by
        rw [cameraPreRenderItem_neg laserRetroDb it h]
      rw [h1]
      apply List.map_congr_left
      intro si hsi
      dsimp only [Function.comp]
      rw [(lookupLast_preEntries laserRetroDb scene hnodup it hit
        si hsi).2 h]
      rfl

/-- A concrete item carrying a laser-retro value, for the C9 witness. -/
def witnessRetroItem : OgreItem :=
  { laserRetro := some 100, visibilityFlags := 0,
    subItems := [ { id := 1, hasCustomParam10 := false,
                    customParam10 := none, datablock := 7 } ] }

/-- A concrete item without a laser-retro value, for the C9 witness. -/
def witnessPlainItem : OgreItem :=
  { laserRetro := none, visibilityFlags := 0,
    subItems := [ { id := 2, hasCustomParam10 := true,
                    customParam10 := none, datablock := 9 } ] }

/-- Witness for C9: a retro item and an untouched item, distinct
sub-item ids; the pre/post pair restores datablocks `[[7], [9]]`. -/
theorem cameraPrePostRender_restores_datablocks_witness :
    (([ witnessRetroItem, witnessPlainItem ]).flatMap (fun it =>
      it.subItems.map (fun si => si.id))).Nodup ∧
    (cameraPostRenderScene
        (cameraPreRenderScene 42 [ witnessRetroItem, witnessPlainItem ]).2
        (cameraPreRenderScene 42
          [ witnessRetroItem, witnessPlainItem ]).1).map
      (fun it => it.subItems.map (fun si => si.datablock))
      = [ [ 7 ], [ 9 ] ] := by
  have hnodup : (([ witnessRetroItem, witnessPlainItem ]).flatMap (fun it =>
      it.subItems.map (fun si => si.id))).Nodup := by
    decide
  have h := cameraPrePostRender_restores_datablocks 42
    [ witnessRetroItem, witnessPlainItem ] hnodup
  refine ⟨hnodup, ?_⟩
  rw [h.2]
  rfl

end IgnRendering
